import Mathlib

/-!
Verification of the sample-synthesis core of the Trace workshop-computer
oscillator module.  The definitions below are a shallow embedding of the
C++ sources (`include/oscillator.h`, `src/main.cpp`): `uint32_t` values are
`Nat` reduced modulo `2 ^ 32` at every operation that can wrap, `int32_t`
values are `Int` (the embedded expressions are checked to stay inside the
32-bit range wherever the source relies on that), and the C arithmetic
right shift on signed values is floor division by a power of two.
-/

/-- The modulus of 32-bit unsigned arithmetic. -/
def UMAX : Nat := 4294967296

/-- Arithmetic right shift of a signed value, as C performs on `int32_t`:
floor division by a power of two. -/
def asr (x : Int) (n : Nat) : Int := Int.fdiv x (2 ^ n)

/-- Reinterpretation of a `uint32_t` bit pattern as a signed `int32_t`
(the C cast `(int32_t)ph`). -/
def toInt32 (x : Nat) : Int :=
  if x % UMAX < 2147483648 then (x % UMAX : Int) else (x % UMAX : Int) - 4294967296

/-- Conversion of a signed value to a `uint32_t` bit pattern (two's
complement reduction modulo `2 ^ 32`). -/
def u32ofInt (x : Int) : Nat := (x % (4294967296 : Int)).toNat

/-- Table index used by `Oscillator::sine`: the top 9 bits of the phase
(`ph >> 23`). -/
def sineIdx (ph : Nat) : Nat := ph >>> 23

/-- Second interpolation index used by `Oscillator::sine`:
`(index + 1) & 0x1FF`. -/
def sineIdx2 (ph : Nat) : Nat := (sineIdx ph + 1) &&& 0x1FF

/-- Interpolation weight used by `Oscillator::sine`:
`(ph & 0x7FFFFF) >> 7`, a 16-bit fraction. -/
def sineFrac (ph : Nat) : Nat := (ph &&& 0x7FFFFF) >>> 7

/-- Embedding of `Oscillator::sine` from `include/oscillator.h`, over an
arbitrary 512-entry table (the table contents live outside `src/`, so the
table is a parameter):
`(s2 * r + s1 * (65536 - r)) >> 20`. -/
def sine (tbl : Nat → Int) (ph : Nat) : Int :=
  asr (tbl (sineIdx2 ph) * (sineFrac ph : Int)
        + tbl (sineIdx ph) * (65536 - (sineFrac ph : Int))) 20

/-- Embedding of `Oscillator::saw`: `(int32_t)ph >> 20`. -/
def saw (ph : Nat) : Int := asr (toInt32 ph) 20

/-- Embedding of `Oscillator::tri`: `(abs((int32_t)ph >> 20) - 1024) << 1`. -/
def tri (ph : Nat) : Int := (|asr (toInt32 ph) 20| - 1024) * 2

/-- Embedding of `Oscillator::sqr`: `(ph & 0x80000000) ? 2047 : -2048`. -/
def sqr (ph : Nat) : Int := if ph &&& 0x80000000 ≠ 0 then 2047 else -2048

/-- A table whose entries all fit in a signed 16-bit word, which is the only
constraint the specification places on the stored waveform tables. -/
def isInt16 (tbl : Nat → Int) : Prop := ∀ i, -32768 ≤ tbl i ∧ tbl i ≤ 32767

/-- Modelled from the spec: helper for the missing `SINE_TABLE` constant.
Value of `round(32767 * sin(pi * j / 256))` for `j < 256`, realised by the
classical Bhaskara rational approximation of the sine (exact at the
quarter-cycle points `j = 0` and `j = 128`, where the proofs below sample
the table). -/
def sineHalf (j : Nat) : Nat :=
  32767 * 324 * (j * (256 - j)) / (6635520 - 81 * (j * (256 - j)))

/-- Modelled from the spec: the 512-entry full-scale signed 16-bit sine
table `SINE_TABLE` referenced by `include/oscillator.h` but defined in a
generated header outside `src/`.  The second half-cycle is the negated
first half-cycle. -/
def SINE_TABLE (i : Nat) : Int :=
  if i % 512 < 256 then (sineHalf (i % 512) : Int) else -(sineHalf (i % 512 - 256) : Int)

/- Helper lemmas about the fixed-point primitives. -/

lemma asr_le_asr (n : Nat) {a b : Int} (h : a ≤ b) : asr a n ≤ asr b n := by
  unfold asr
  rw [Int.fdiv_eq_ediv _ (by positivity), Int.fdiv_eq_ediv _ (by positivity)]
  exact Int.ediv_le_ediv (by positivity) h

lemma sineFrac_le (ph : Nat) : sineFrac ph ≤ 65535 := by
  unfold sineFrac
  have h1 : ph &&& 0x7FFFFF ≤ 0x7FFFFF := Nat.and_le_right
  calc (ph &&& 0x7FFFFF) >>> 7 ≤ 0x7FFFFF >>> 7 := by
        rw [Nat.shiftRight_eq_div_pow, Nat.shiftRight_eq_div_pow]
        exact Nat.div_le_div_right h1
    _ = 65535 := by decide

lemma sine_bounds {tbl : Nat → Int} (h : isInt16 tbl) (ph : Nat) :
    -2048 ≤ sine tbl ph ∧ sine tbl ph ≤ 2047 := by
  have h1 := h (sineIdx ph)
  have h2 := h (sineIdx2 ph)
  have hr0 : (0 : Int) ≤ (sineFrac ph : Int) := by positivity
  have hr : (sineFrac ph : Int) ≤ 65535 := by exact_mod_cast sineFrac_le ph
  set r : Int := (sineFrac ph : Int) with hrdef
  set s1 : Int := tbl (sineIdx ph) with hs1
  set s2 : Int := tbl (sineIdx2 ph) with hs2
  have e1 : (-32768 : Int) * r ≤ s2 * r := mul_le_mul_of_nonneg_right h2.1 hr0
  have e2 : (-32768 : Int) * (65536 - r) ≤ s1 * (65536 - r) :=
    mul_le_mul_of_nonneg_right h1.1 (by linarith)
  have e3 : s2 * r ≤ (32767 : Int) * r := mul_le_mul_of_nonneg_right h2.2 hr0
  have e4 : s1 * (65536 - r) ≤ (32767 : Int) * (65536 - r) :=
    mul_le_mul_of_nonneg_right h1.2 (by linarith)
  have low : (-2147483648 : Int) ≤ s2 * r + s1 * (65536 - r) := by linarith
  have high : s2 * r + s1 * (65536 - r) ≤ (2147418112 : Int) := by linarith
  constructor
  · have := asr_le_asr 20 low
    have hend : asr (-2147483648) 20 = -2048 := by decide
    unfold sine
    rw [← hrdef, ← hs1, ← hs2]
    omega
  · have := asr_le_asr 20 high
    have hend : asr (2147418112 : Int) 20 = 2047 := by decide
    unfold sine
    rw [← hrdef, ← hs1, ← hs2]
    omega

lemma asr20_toInt32_bounds (ph : Nat) :
    -2048 ≤ asr (toInt32 ph) 20 ∧ asr (toInt32 ph) 20 ≤ 2047 := by
  have hb : -2147483648 ≤ toInt32 ph ∧ toInt32 ph ≤ 2147483647 := by
    unfold toInt32 UMAX
    split <;> omega
  constructor
  · have := asr_le_asr 20 hb.1
    have hend : asr (-2147483648) 20 = -2048 := by decide
    omega
  · have := asr_le_asr 20 hb.2
    have hend : asr (2147483647 : Int) 20 = 2047 := by decide
    omega

/-- C6: for every 32-bit phase value and any signed-16-bit sine table,
`sine(phase)` lies within `[-2048, 2047]`. -/
theorem sine_output_in_range (tbl : Nat → Int) (h : isInt16 tbl)
    (ph : Nat) (_hph : ph < 4294967296) :
    -2048 ≤ sine tbl ph ∧ sine tbl ph ≤ 2047 :=
  sine_bounds h ph

/-- Witness for C6 at the zero table and phase 12345. -/
theorem sine_output_in_range_witness :
    -2048 ≤ sine (fun _ => 0) 12345 ∧ sine (fun _ => 0) 12345 ≤ 2047 :=
  sine_output_in_range (fun _ => 0) (fun _ => ⟨by norm_num, by norm_num⟩) 12345 (by norm_num)

/-- C7 (counterexample): `saw` attains the value 2047 (at phase
`0x7FFFFFFF`), so its range is not the half-open interval
`[-2048, 2047)` stated by the claim. -/
theorem saw_attains_2047 : saw 2147483647 = 2047 ∧ ¬ saw 2147483647 < 2047 := by
  constructor
  · decide
  · decide

/-- C7 (amended): `saw(phase)` equals the arithmetic right shift by 20 of
the phase reinterpreted as a signed 32-bit integer, and its result lies in
the closed range `[-2048, 2047]`. -/
theorem saw_shift_and_range (ph : Nat) (_hph : ph < 4294967296) :
    saw ph = asr (toInt32 ph) 20 ∧ -2048 ≤ saw ph ∧ saw ph ≤ 2047 := by
  refine ⟨rfl, ?_, ?_⟩
  · exact (asr20_toInt32_bounds ph).1
  · exact (asr20_toInt32_bounds ph).2

/-- Witness for C7 (amended) at phase 123456. -/
theorem saw_shift_and_range_witness :
    saw 123456 = asr (toInt32 123456) 20 ∧ -2048 ≤ saw 123456 ∧ saw 123456 ≤ 2047 :=
  saw_shift_and_range 123456 (by norm_num)

/-- C9: for every 32-bit phase, `tri(phase)` lies in `[-2048, 2048]`, and
it attains 2048 at phase `0x80000000`. -/
theorem tri_range_and_peak :
    (∀ ph : Nat, ph < 4294967296 → -2048 ≤ tri ph ∧ tri ph ≤ 2048) ∧
      tri 2147483648 = 2048 := by
  constructor
  · intro ph _
    have hb := asr20_toInt32_bounds ph
    have habs : |asr (toInt32 ph) 20| ≤ 2048 := abs_le.mpr ⟨by linarith [hb.1], by linarith [hb.2]⟩
    have habs0 : 0 ≤ |asr (toInt32 ph) 20| := abs_nonneg _
    unfold tri
    constructor <;> linarith
  · decide

/-- Witness for C9 at phase 99 and at the peak phase. -/
theorem tri_range_and_peak_witness :
    (-2048 ≤ tri 99 ∧ tri 99 ≤ 2048) ∧ tri 2147483648 = 2048 :=
  ⟨tri_range_and_peak.1 99 (by norm_num), tri_range_and_peak.2⟩

/- Selection state machine, from `src/main.cpp` (`WT`).  A selection state
is a pair `(currentBank, currentOscIndex)`. -/

/-- Embedding of `WT::bankSizes = {1, 3, 3}`. -/
def bankSizes : Nat → Nat
  | 0 => 1
  | 1 => 3
  | 2 => 3
  | _ => 0

/-- Embedding of `WT::CycleOscillator`: increment the index, and when it
reaches the current bank's size move to the next bank (cyclically) with
index 0. -/
def CycleOscillator (s : Nat × Nat) : Nat × Nat :=
  let i := s.2 + 1
  if bankSizes s.1 ≤ i then ((s.1 + 1) % 3, 0) else (s.1, i)

/-- Embedding of the `PulseIn1RisingEdge` handler in `WT::ProcessSample`:
`currentBank = (currentBank + 1) % 3; currentOscIndex = 0;`. -/
def bankAdvance (s : Nat × Nat) : Nat × Nat := ((s.1 + 1) % 3, 0)

/-- Embedding of the `PulseIn2RisingEdge` handler in `WT::ProcessSample`:
`currentOscIndex = (currentOscIndex + 1) % bankSizes[currentBank];`. -/
def indexAdvance (s : Nat × Nat) : Nat × Nat := (s.1, (s.2 + 1) % bankSizes s.1)

/-- C3 (counterexample): four `CycleOscillator` advances from the initial
state `(0, 0)` do not land on `(BANK_MESH, 0) = (1, 0)`. -/
theorem cycle_four_not_mesh : CycleOscillator^[4] (0, 0) ≠ (1, 0) := by decide

/-- C3 (amended): four `CycleOscillator` advances from `(0, 0)` land on
`(BANK_WT, 0) = (2, 0)`; a single advance already moves FUNC/0 to MESH/0
because FUNC has size 1. -/
theorem cycle_four_lands_wt :
    CycleOscillator^[4] (0, 0) = (2, 0) ∧ CycleOscillator (0, 0) = (1, 0) := by
  constructor
  · decide
  · decide

/-- C4 (counterexample): a bank-advance trigger from state `(1, 2)` resets
the index to 0, so it does not leave the index unchanged. -/
theorem bankAdvance_changes_index : (bankAdvance (1, 2)).2 ≠ (1, 2).2 := by decide

/-- C4 (amended): an index-advance trigger never changes the bank, and a
bank-advance trigger advances the bank cyclically while resetting the
index to 0 (it does not preserve the index). -/
theorem advance_events_effect :
    ∀ b i : Nat, (indexAdvance (b, i)).1 = b ∧
      (bankAdvance (b, i)).1 = (b + 1) % 3 ∧ (bankAdvance (b, i)).2 = 0 := by
  intro b i
  exact ⟨rfl, rfl, rfl⟩

/- Output conditioning filter, from `src/main.cpp`. -/

/-- Embedding of `WT::FILTER_COEF = 57344` (0.875 in Q16). -/
def FILTER_COEF : Int := 57344

/-- One channel of the anti-aliasing filter update in `WT::ProcessSample`:
`filter += ((out - filter) * FILTER_COEF) >> 16`. -/
def filterStep (sample f : Int) : Int := f + asr ((sample - f) * FILTER_COEF) 16

/-- The filter state after `n` ticks with the input held at 2047, starting
from the zero-initialised state. -/
def filterIter : Nat → Int
  | 0 => 0
  | n + 1 => filterStep 2047 (filterIter n)

lemma filterStep_step_bounds {f : Int} (h : f ≤ 2047) :
    f ≤ filterStep 2047 f ∧ filterStep 2047 f ≤ 2047 := by
  have hd : (0 : Int) ≤ 2047 - f := by linarith
  have hlow : (0 : Int) ≤ asr ((2047 - f) * FILTER_COEF) 16 := by
    have h0 : asr 0 16 = 0 := by decide
    have := asr_le_asr 16 (a := 0) (b := (2047 - f) * FILTER_COEF)
      (mul_nonneg hd (by norm_num [FILTER_COEF]))
    omega
  have hhigh : asr ((2047 - f) * FILTER_COEF) 16 ≤ 2047 - f := by
    have h1 : (2047 - f) * FILTER_COEF ≤ (2047 - f) * 65536 := by
      unfold FILTER_COEF
      nlinarith
    have h2 := asr_le_asr 16 h1
    have h3 : asr ((2047 - f) * 65536) 16 = 2047 - f := by
      unfold asr
      rw [Int.fdiv_eq_ediv _ (by positivity)]
      norm_num
    omega
  unfold filterStep
  constructor <;> linarith

lemma filterIter_le (n : Nat) : filterIter n ≤ 2047 := by
  induction n with
  | zero => norm_num [filterIter]
  | succ k ih => exact (filterStep_step_bounds ih).2

/-- C8: with the input sample held at 2047 from the zero-initialised
state, the one-pole low-pass state is monotonically non-decreasing from
tick to tick and never exceeds 2047. -/
theorem filter_monotone_bounded (n : Nat) :
    filterIter n ≤ filterIter (n + 1) ∧ filterIter n ≤ 2047 :=
  ⟨(filterStep_step_bounds (filterIter_le n)).1, filterIter_le n⟩

/- Generic 1024-entry interpolated lookup and mesh path indexing. -/

/-- Table index used by `YinYangCalligraphy::lookup1024`: `ph >> 22`. -/
def lutIdx (ph : Nat) : Nat := ph >>> 22

/-- Second interpolation index used by `YinYangCalligraphy::lookup1024`:
`(index + 1) & 0x3FF`. -/
def lutIdx2 (ph : Nat) : Nat := (lutIdx ph + 1) &&& 0x3FF

/-- Interpolation weight used by `YinYangCalligraphy::lookup1024`:
`(ph & 0x3FFFFF) >> 6`. -/
def lutFrac (ph : Nat) : Nat := (ph &&& 0x3FFFFF) >>> 6

/-- Embedding of `YinYangCalligraphy::lookup1024` over an arbitrary
1024-entry table: `(s2 * r + s1 * (65536 - r)) >> 20`. -/
def lookup1024 (tbl : Nat → Int) (ph : Nat) : Int :=
  asr (tbl (lutIdx2 ph) * (lutFrac ph : Int)
        + tbl (lutIdx ph) * (65536 - (lutFrac ph : Int))) 20

/-- Mesh path segment index from the `Poly*::compute` bodies:
`((uint64_t)ph * (path_count - 1)) >> 32`. -/
def meshSegment (ph n : Nat) : Nat := (ph * (n - 1)) >>> 32

/-- Second interpolation endpoint index from the `Poly*::compute` bodies:
`(segment + 1) % path_count`. -/
def meshSegment2 (ph n : Nat) : Nat := (meshSegment ph n + 1) % n

/-- Interpolation fraction from the `Poly*::compute` bodies:
`(uint16_t)(((uint64_t)ph * (path_count - 1) & 0xFFFFFFFF) >> 22)`. -/
def meshFrac (ph n : Nat) : Nat := ((ph * (n - 1)) &&& 0xFFFFFFFF) >>> 22

/-- Clamp applied to the frequency control before the increment-table
lookup in `WT::ProcessSample`: `freq > 4095 ? 4095 : (freq < 0 ? 0 : freq)`. -/
def clampFreq (f : Int) : Int := if f > 4095 then 4095 else if f < 0 then 0 else f

lemma shiftRight23_lt (ph : Nat) (hph : ph < 4294967296) : ph >>> 23 < 512 := by
  rw [Nat.shiftRight_eq_div_pow]
  have h : (2 : Nat) ^ 23 = 8388608 := by norm_num
  rw [h]
  omega

lemma shiftRight22_lt (ph : Nat) (hph : ph < 4294967296) : ph >>> 22 < 1024 := by
  rw [Nat.shiftRight_eq_div_pow]
  have h : (2 : Nat) ^ 22 = 4194304 := by norm_num
  rw [h]
  omega

lemma meshSegment_lt (ph n : Nat) (hph : ph < 4294967296) (hn : 0 < n) :
    meshSegment ph n < n := by
  unfold meshSegment
  rw [Nat.shiftRight_eq_div_pow]
  apply Nat.div_lt_of_lt_mul
  have h : (2 : Nat) ^ 32 = 4294967296 := by norm_num
  rw [h]
  obtain ⟨m, rfl⟩ : ∃ m, n = m + 1 := ⟨n - 1, by omega⟩
  have hm : m + 1 - 1 = m := by omega
  rw [hm]
  calc ph * m ≤ 4294967295 * m := Nat.mul_le_mul_right m (by omega)
    _ < 4294967296 * (m + 1) := by omega

/-- C2: every lookup-table index used by the core is in bounds: the sine
indices are below 512, the wavetable indices below 1024, the mesh path
segment indices below the point count, and the clamped frequency-control
value within the increment table's domain `[0, 4096)`. -/
theorem table_indices_in_bounds :
    (∀ ph : Nat, ph < 4294967296 → sineIdx ph < 512 ∧ sineIdx2 ph < 512) ∧
    (∀ ph : Nat, ph < 4294967296 → lutIdx ph < 1024 ∧ lutIdx2 ph < 1024) ∧
    (∀ ph n : Nat, ph < 4294967296 → 0 < n →
      meshSegment ph n < n ∧ meshSegment2 ph n < n) ∧
    (∀ f : Int, 0 ≤ clampFreq f ∧ clampFreq f < 4096) := by
  refine ⟨?_, ?_, ?_, ?_⟩
  · intro ph hph
    refine ⟨shiftRight23_lt ph hph, ?_⟩
    have h := Nat.and_le_right (n := sineIdx ph + 1) (m := 0x1FF)
    unfold sineIdx2
    omega
  · intro ph hph
    refine ⟨shiftRight22_lt ph hph, ?_⟩
    have h := Nat.and_le_right (n := lutIdx ph + 1) (m := 0x3FF)
    unfold lutIdx2
    omega
  · intro ph n hph hn
    exact ⟨meshSegment_lt ph n hph hn, Nat.mod_lt _ hn⟩
  · intro f
    unfold clampFreq
    split_ifs <;> omega

/-- Witness for C2 at phase `0xDEADBEEF`, point count 5 and frequency
control 9999. -/
theorem table_indices_in_bounds_witness :
    (sineIdx 3735928559 < 512 ∧ sineIdx2 3735928559 < 512) ∧
    (lutIdx 3735928559 < 1024 ∧ lutIdx2 3735928559 < 1024) ∧
    (meshSegment 3735928559 5 < 5 ∧ meshSegment2 3735928559 5 < 5) ∧
    (0 ≤ clampFreq 9999 ∧ clampFreq 9999 < 4096) :=
  ⟨table_indices_in_bounds.1 3735928559 (by norm_num),
   table_indices_in_bounds.2.1 3735928559 (by norm_num),
   table_indices_in_bounds.2.2.1 3735928559 5 (by norm_num) (by norm_num),
   table_indices_in_bounds.2.2.2 9999⟩

/-- C10: for every 32-bit scaled phase and every path with at least two
points, the mesh segment index is at most `point_count - 2`, so the second
endpoint `segment + 1` is in range, the modulo never wraps it to 0, and
the closing segment `point_count - 1` is never selected. -/
theorem mesh_segment_no_wrap (ph n : Nat) (hph : ph < 4294967296) (hn : 2 ≤ n) :
    meshSegment ph n ≤ n - 2 ∧
    meshSegment2 ph n = meshSegment ph n + 1 ∧
    meshSegment2 ph n ≠ 0 ∧
    meshSegment ph n ≠ n - 1 := by
  have hlt : meshSegment ph n < n - 1 := by
    unfold meshSegment
    rw [Nat.shiftRight_eq_div_pow]
    apply Nat.div_lt_of_lt_mul
    have h : (2 : Nat) ^ 32 = 4294967296 := by norm_num
    rw [h]
    obtain ⟨m, rfl⟩ : ∃ m, n = m + 2 := ⟨n - 2, by omega⟩
    have hm : m + 2 - 1 = m + 1 := by omega
    rw [hm]
    calc ph * (m + 1) ≤ 4294967295 * (m + 1) := Nat.mul_le_mul_right (m + 1) (by omega)
      _ < 4294967296 * (m + 1) := by omega
  have hmod : meshSegment2 ph n = meshSegment ph n + 1 := by
    unfold meshSegment2
    exact Nat.mod_eq_of_lt (by omega)
  refine ⟨by omega, hmod, by omega, by omega⟩

/-- Witness for C10 at phase `0xFFFFFFFF` and point count 5. -/
theorem mesh_segment_no_wrap_witness :
    meshSegment 4294967295 5 ≤ 3 ∧
    meshSegment2 4294967295 5 = meshSegment 4294967295 5 + 1 ∧
    meshSegment2 4294967295 5 ≠ 0 ∧
    meshSegment 4294967295 5 ≠ 4 :=
  mesh_segment_no_wrap 4294967295 5 (by norm_num) (by norm_num)

/- Shape oscillators. -/

/-- Truncation of a 64-bit signed intermediate back to `int32_t`, as the
C casts at the ends of the compute pipelines do. -/
def int32cast (x : Int) : Int := toInt32 (u32ofInt x)

/-- Clamp of a modulation input to `[0, 4096]`, as written in every
`compute` body: `mod < 0 ? 0 : (mod > 4096 ? 4096 : mod)`. -/
def clampMod (m : Int) : Int := if m < 0 then 0 else if m > 4096 then 4096 else m

/-- The clamped modulation value widened by `<< 20` in `uint32_t`
arithmetic (so a clamped value of 4096 wraps to 0). -/
def clampShift20 (m : Int) : Nat := ((clampMod m).toNat <<< 20) % UMAX

/-- Embedding of `YinYang::compute` from `include/oscillator.h`.
Arguments: the sine table, the internal rotation-phase state `ph_rot`
before the call, the phase `ph`, and the two modulation inputs.  Returns
the `(out[0], out[1])` pair. -/
def YinYang_compute (tbl : Nat → Int) (ph_rot0 ph : Nat)
    (mod_grow mod_rot : Int) : Int × Int :=
  let ph_rot := (ph_rot0 + u32ofInt ((mod_rot - 2048) * 2048)) % UMAX
  let grow := clampShift20 mod_grow
  let sign : Int := if ph >>> 31 ≠ 0 then -1 else 1
  let ph_all := ((ph * 2 % UMAX) * grow) >>> 32
  let sec := ph_all >>> 30
  let body : Int × Int :=
    if sec = 3 then
      let ph_eye := (ph_all <<< 2) % UMAX
      (asr (sine tbl (ph_eye * 2 % UMAX)) 2,
        -(asr (sine tbl ((ph_eye * 2 + 1073741824) % UMAX)) 2) + 1024)
    else
      let ph_body := ((ph_all * 1431655766) >>> 30) % UMAX
      let sec_body := ph_body >>> 30
      if sec_body = 0 then
        (asr (sine tbl (ph_body * 2 % UMAX)) 1,
          -(asr (sine tbl ((ph_body * 2 + 1073741824) % UMAX)) 1) + 1024)
      else if sec_body = 3 then
        (asr (sine tbl (ph_body * 2 % UMAX)) 1,
          asr (sine tbl ((ph_body * 2 + 1073741824) % UMAX)) 1 - 1024)
      else
        (-(sine tbl ((ph_body + UMAX - 1073741824) % UMAX)), sine tbl ph_body)
  let x := sign * body.1
  let y := sign * (body.2 + 8)
  let s := sine tbl ph_rot
  let c := sine tbl ((ph_rot + 1073741824) % UMAX)
  (int32cast (asr (x * s + y * c) 11), int32cast (asr (x * c - y * s) 11))

/-- Embedding of the shared `PolyCube` / `PolyCone` / `PolyICO` `compute`
body, parameterized by the sine table, the 3D path table (a point per
index) and the point count, which live outside `src/`. -/
def Poly_compute (tbl : Nat → Int) (path : Nat → Int × Int × Int) (n : Nat)
    (ph_rot0 ph : Nat) (mod_grow mod_rot : Int) : Int × Int :=
  let grow := clampShift20 mod_grow
  let ph2 := (ph * grow) >>> 32
  let ph_rot := (ph_rot0 + u32ofInt ((mod_rot - 2048) * 1024)) % UMAX
  let frac : Int := (meshFrac ph2 n : Nat)
  let p1 := path (meshSegment ph2 n)
  let p2 := path (meshSegment2 ph2 n)
  let x := p1.1 + asr ((p2.1 - p1.1) * frac) 10
  let y := p1.2.1 + asr ((p2.2.1 - p1.2.1) * frac) 10
  let z := p1.2.2 + asr ((p2.2.2 - p1.2.2) * frac) 10
  let s := sine tbl ph_rot
  let c := sine tbl ((ph_rot + UMAX - 1073741824) % UMAX)
  let rx := asr (x * c - z * s) 11
  let rz := asr (x * s + z * c) 11
  let v := asr rz 1 + asr (y * 3547) 12
  (int32cast (asr rx 1), int32cast (asr v 1))

/-- Embedding of `YinYangCalligraphy::compute`, parameterized by the four
1024-entry channel tables (`YIN->left`, `YIN->right`, `YANG->left`,
`YANG->right`), which live outside `src/`. -/
def Calligraphy_compute (yl yr gl gr : Nat → Int) (ph : Nat)
    (mod_grow mod_morph : Int) : Int × Int :=
  let grow := clampShift20 mod_grow
  let ph2 := (ph * grow) >>> 32
  let morph := clampShift20 mod_morph
  let m : Int := (morph >>> 16 : Nat)
  let yin_l := lookup1024 yl ph2
  let yin_r := lookup1024 yr ph2
  let yang_l := lookup1024 gl ph2
  let yang_r := lookup1024 gr ph2
  (int32cast (asr ((yin_l * (65536 - m) + yang_l * m) * 6) 19),
    int32cast (asr (-(yin_r * (65536 - m) + yang_r * m) * 6) 19))

/-- C1: evaluation of `YinYang::compute` at the failing input: with the
rotation-phase state `0x80000000`, phase `0x30000000` and both modulation
inputs at 2048, the left output is -2055, outside `[-2048, 2047]`. -/
theorem yinyang_output_overflow :
    YinYang_compute SINE_TABLE 2147483648 805306368 2048 2048 = (-2055, 0) ∧
      (-2055 : Int) < -2048 := by
  constructor
  · decide
  · decide

/-- C5: the morph weight wraps to zero at the clamp ceiling: for every
choice of the four channel tables, phase and grow input,
`YinYangCalligraphy::compute` at `mod2 = 4096` returns exactly what it
returns at `mod2 = 0` (the table-A output), not the table-B output the
claim requires, because `4096 << 20` overflows `uint32_t` to 0. -/
theorem calligraphy_morph_ceiling_wraps (yl yr gl gr : Nat → Int)
    (ph : Nat) (mod_grow : Int) :
    Calligraphy_compute yl yr gl gr ph mod_grow 4096 =
      Calligraphy_compute yl yr gl gr ph mod_grow 0 := by
  have h : clampShift20 4096 = clampShift20 0 := by decide
  simp only [Calligraphy_compute]
  rw [h]
